import Mathlib

/-!
Shallow embedding of the order synchronization and arrival/expiry engine of
the cafe-order-display repository.

The display client lives in src/app/display/page.tsx; the controller client
lives in the controller page source (src/unnamed/part_003, second component).
Remote records are modelled with optional fields (`none` stands for an absent
or non-numeric JavaScript value), stateful React code is modelled as explicit
state passing, and the stable JavaScript Array.sort is modelled with the
stable List.insertionSort over the preorder induced by the comparator.
-/

namespace CafeOrderDisplay

/-! ## Data model -/

/-- A parsed order record as reconstructed by a subscriber.  Mirrors the
Order interface of the display page (id, number, createdAt, optional
expiresAt, status); the controller page uses the same shape with a plain
string status, so a single structure with a string status covers both. -/
structure Order where
  id : String
  number : Int
  createdAt : Int
  expiresAt : Option Int
  status : String
deriving DecidableEq

/-- A raw remote record as delivered by the store before any defensive
parsing.  A field is `none` when it is absent from the remote value (or, for
the numeric fields, not coercible to a number). -/
structure RawOrder where
  number : Option Int
  createdAt : Option Int
  expiresAt : Option Int
  status : Option String
deriving DecidableEq

/-- Type guard of the display page (lines 28-32): a status string is valid
exactly when it is one of ready, done, removed. -/
def isValidOrderStatus (status : String) : Bool :=
  status = "ready" || status = "done" || status = "removed"

/-- Defensive parsing of one remote record on the display subscription
(display page lines 264-273).  Absent number and createdAt default to 0; the
expiresAt field is kept only when present and nonzero (the source tests the
raw value for JavaScript truthiness before converting it); a status that
fails the type guard defaults to ready. -/
def parseOrderDisplay (key : String) (raw : RawOrder) : Order :=
  { id := key
    number := raw.number.getD 0
    createdAt := raw.createdAt.getD 0
    expiresAt :=
      match raw.expiresAt with
      | some e => if e = 0 then none else some e
      | none => none
    status :=
      match raw.status with
      | some s => if isValidOrderStatus s then s else "ready"
      | none => "ready" }

/-- Defensive parsing of one remote record on the controller subscription
(controller source lines 936-945).  Number and createdAt default as on the
display, but the status is only defaulted when the raw value is falsy
(absent or the empty string); any other string is kept verbatim. -/
def parseOrderController (key : String) (raw : RawOrder) : Order :=
  { id := key
    number := raw.number.getD 0
    createdAt := raw.createdAt.getD 0
    expiresAt :=
      match raw.expiresAt with
      | some e => if e = 0 then none else some e
      | none => none
    status :=
      match raw.status with
      | some s => if s = "" then "ready" else s
      | none => "ready" }

/-! ## Snapshot ordering

JavaScript Array.sort is stable, so a sort with comparator c is modelled by
the stable insertion sort over the relation (a before b iff c a b is not
positive); the output of any stable sort is uniquely determined by that
total preorder, so this is a faithful model of the source sort call. -/

/-- Preorder induced by the display sort comparator (display page lines
276-282): b.createdAt - a.createdAt, falling back to b.number - a.number on
a tie.  a may stay before b iff the comparator value is not positive. -/
def displayOrderRel (a b : Order) : Prop :=
  b.createdAt < a.createdAt ∨ (a.createdAt = b.createdAt ∧ b.number ≤ a.number)

instance : DecidableRel displayOrderRel := fun a b => by
  unfold displayOrderRel; infer_instance

instance : IsTotal Order displayOrderRel :=
  ⟨by intro a b; unfold displayOrderRel; omega⟩

instance : IsTrans Order displayOrderRel :=
  ⟨by intro a b c; unfold displayOrderRel; omega⟩

/-- Preorder induced by the controller sort comparator (controller source
line 948): b.createdAt - a.createdAt only, no tie break. -/
def controllerOrderRel (a b : Order) : Prop :=
  b.createdAt ≤ a.createdAt

instance : DecidableRel controllerOrderRel := fun a b => by
  unfold controllerOrderRel; infer_instance

instance : IsTotal Order controllerOrderRel :=
  ⟨by intro a b; unfold controllerOrderRel; omega⟩

instance : IsTrans Order controllerOrderRel :=
  ⟨by intro a b c; unfold controllerOrderRel; omega⟩

/-- Ordering required by the specification text: primary key createdAt
descending, tie broken by number descending.  Stated from the words of the
spec, to be compared with the orders the code actually produces. -/
def specSortRel (a b : Order) : Prop :=
  a.createdAt > b.createdAt ∨ (a.createdAt = b.createdAt ∧ a.number ≥ b.number)

instance : DecidableRel specSortRel := fun a b => by
  unfold specSortRel; infer_instance

/-- Reconstruction of the local order list on the display from one full-set
snapshot: parse every child under its key (in key enumeration order) and
stable-sort with the display comparator. -/
def displaySnapshotList (entries : List (String × RawOrder)) : List Order :=
  List.insertionSort displayOrderRel (entries.map fun p => parseOrderDisplay p.1 p.2)

/-- Reconstruction of the local order list on the controller from one
full-set snapshot: parse every child and stable-sort with the controller
comparator. -/
def controllerSnapshotList (entries : List (String × RawOrder)) : List Order :=
  List.insertionSort controllerOrderRel (entries.map fun p => parseOrderController p.1 p.2)

/-! ## Sound setting (display page lines 54 and 93-98) -/

/-- Initial value of the isSoundEnabled state: useState(false). -/
def initialSoundEnabled : Bool := false

/-- Effect that loads the persisted sound setting: when a saved value exists
it replaces the current state, otherwise the state is left alone. -/
def loadSoundSetting (saved : Option Bool) (isSoundEnabled : Bool) : Bool :=
  match saved with
  | some v => v
  | none => isSoundEnabled

/-- Sound-enabled flag right after the load effect has run on startup. -/
def soundEnabledAfterLoad (saved : Option Bool) : Bool :=
  loadSoundSetting saved initialSoundEnabled

/-! ## Highlight tracking (display page lines 117-136 and 144-170)

Times are epoch milliseconds as naturals; the newOrderIds map is modelled as
an association list from order id to expiry instant. -/

/-- kickHighlight: store expiry now + 5000 for the order id (overwriting any
previous entry for the same key, as the object spread does). -/
def kickHighlight (orderId : String) (now : Nat)
    (prev : List (String × Nat)) : List (String × Nat) :=
  (orderId, now + 5000) :: prev.filter (fun p => p.1 ≠ orderId)

/-- One tick of the 1 Hz highlight sweep: delete every entry whose expiry
instant is at or before the current time. -/
def sweepNewOrderIds (now : Nat) (prev : List (String × Nat)) : List (String × Nat) :=
  prev.filter (fun p => ! decide (p.2 ≤ now))

/-- Fire time of the k-th tick of a setInterval with period 1000 started at
time start (the first callback runs one period after start). -/
def sweepTime (start k : Nat) : Nat := start + 1000 * (k + 1)

/-- Index of the first sweep tick at or after the expiry instant of a
highlight inserted at time t0 (expiry t0 + 5000). -/
def removalIndex (start t0 : Nat) : Nat := (t0 + 4999 - start) / 1000

/-! ## Order expiry sweep on the display (lines 205-237) -/

/-- Expiry test of cleanupExpiredOrders: the source computes
order.expiresAt && order.expiresAt <= currentServerTime, so an absent
expiresAt (and a zero one, both being falsy) is never expired. -/
def isExpiredOrder (o : Order) (currentServerTime : Int) : Bool :=
  match o.expiresAt with
  | none => false
  | some e => if e = 0 then false else decide (e ≤ currentServerTime)

/-- One tick of the 1/10 Hz expiry sweep: split the current list into the
retained orders and the ids of the expired ones (a remote delete is issued
for each id of the second component). -/
def cleanupExpiredOrders (prevOrders : List Order) (currentServerTime : Int) :
    List Order × List String :=
  (prevOrders.filter (fun o => ! isExpiredOrder o currentServerTime),
   (prevOrders.filter (fun o => isExpiredOrder o currentServerTime)).map Order.id)

/-- Iterated expiry sweeps at the given sequence of server times. -/
def runCleanupSweeps (orders : List Order) (times : List Int) : List Order :=
  match times with
  | [] => orders
  | t :: ts => runCleanupSweeps (cleanupExpiredOrders orders t).1 ts

/-! ## Arrival detection on the display (lines 286-301 and 322-346) -/

/-- Subscription events delivered to the display client.  valueSnap is one
full-set callback of the order subscription (none models a snapshot that
does not exist); childAdded is one callback of the child-added subscription,
carrying the snapshot key and the truthiness of the snapshot value. -/
inductive DisplayEvent where
  | valueSnap (raw : Option (List (String × RawOrder)))
  | childAdded (key : Option String) (hasVal : Bool)
deriving DecidableEq

/-- Display client state relevant to arrival detection: the initial-load
latch (initialAddedDoneRef), the order list, and the sequence of order ids
passed to kickHighlight so far, in trigger order. -/
structure DisplayState where
  initialAddedDone : Bool
  orders : List Order
  highlighted : List String
deriving DecidableEq

/-- State of the display client before any event has been delivered. -/
def initDisplayState : DisplayState :=
  { initialAddedDone := false, orders := [], highlighted := [] }

/-- One event of the display client.  A full-set callback rebuilds the order
list and sets the latch (in both the data and the empty branch); a
child-added callback with a truthy key and value triggers the highlight only
when the latch is already set. -/
def stepDisplay (s : DisplayState) : DisplayEvent → DisplayState
  | .valueSnap (some data) =>
      { s with orders := displaySnapshotList data, initialAddedDone := true }
  | .valueSnap none =>
      { s with orders := [], initialAddedDone := true }
  | .childAdded key hasVal =>
      match key with
      | some k =>
          if k = "" then s
          else if ! hasVal then s
          else if s.initialAddedDone then
            { s with highlighted := s.highlighted ++ [k] }
          else s
      | none => s

/-- Run the display client over a sequence of delivered events. -/
def runDisplay (s : DisplayState) (evs : List DisplayEvent) : DisplayState :=
  match evs with
  | [] => s
  | e :: rest => runDisplay (stepDisplay s e) rest

/-- Key of a child-added event that passes the truthiness guard of the
handler; none for every other event. -/
def validAddKey : DisplayEvent → Option String
  | .childAdded (some k) true => if k = "" then none else some k
  | _ => none

/-- Whether an event is a full-set callback (the latch setter). -/
def isSnapEvent : DisplayEvent → Bool
  | .valueSnap _ => true
  | _ => false

/-- Keys of the guarded child-added events that occur strictly after the
first full-set callback of the trace, in delivery order. -/
def postSnapAdds : List DisplayEvent → List String
  | [] => []
  | e :: rest =>
      if isSnapEvent e then rest.filterMap validAddKey else postSnapAdds rest

/-- Raw entries used by the concrete arrival-detection scenario: the five
orders already present at subscription time. -/
def c1DemoEntries : List (String × RawOrder) :=
  [("a1", ⟨some 101, some 1000, some 301000, some "ready"⟩),
   ("a2", ⟨some 102, some 2000, some 302000, some "ready"⟩),
   ("a3", ⟨some 103, some 3000, some 303000, some "ready"⟩),
   ("a4", ⟨some 104, some 4000, some 304000, some "ready"⟩),
   ("a5", ⟨some 105, some 5000, some 305000, some "ready"⟩)]

/-- Concrete event trace: catch-up child-added events for five pre-existing
orders, then the first full-set snapshot, then a genuinely new sixth
order. -/
def c1DemoTrace : List DisplayEvent :=
  [.childAdded (some "a1") true,
   .childAdded (some "a2") true,
   .childAdded (some "a3") true,
   .childAdded (some "a4") true,
   .childAdded (some "a5") true,
   .valueSnap (some c1DemoEntries),
   .childAdded (some "a6") true]

/-! ## Controller state machine (controller source lines 876-1106)

Push keys of the remote store are modelled as naturals allocated by a
counter, so that freshness of a newly assigned id is expressible. -/

/-- One entry of the remote order collection together with its push key. -/
structure StoreOrder where
  id : Nat
  number : Int
  createdAt : Int
  expiresAt : Option Int
  status : String
deriving DecidableEq

/-- Snapshot of a deleted order kept for undo (the DeletedOrder interface):
everything but the id. -/
structure DeletedOrder where
  number : Int
  createdAt : Int
  expiresAt : Option Int
  status : String
deriving DecidableEq

/-- State visible to the controller logic: the remote collection with its
fresh-key counter, the remote TTL config value, the local currentTTL state,
the server time offset, the subscribed local view (recentOrders), and the
single-slot undo buffer (lastDeletedOrder). -/
structure ControllerState where
  store : List StoreOrder
  nextId : Nat
  remoteTTL : Int
  currentTTL : Int
  offset : Int
  recentOrders : List StoreOrder
  lastDeletedOrder : Option DeletedOrder
deriving DecidableEq

/-- Outcome of a submission attempt. -/
inductive SubmitResult where
  | rejectedDuplicate
  | success
deriving DecidableEq

/-- Manual submission (onSubmit): reject when the proposed number matches
some order of the current local view; otherwise push a new order whose
createdAt is the server-corrected time localNow + offset and whose expiresAt
is createdAt + currentTTL, and clear the undo buffer. -/
def onSubmit (s : ControllerState) (orderNumber : Int) (localNow : Int) :
    ControllerState × SubmitResult :=
  if s.recentOrders.any (fun o => o.number = orderNumber) then
    (s, .rejectedDuplicate)
  else
    let currentTime := localNow + s.offset
    let expiresAt := currentTime + s.currentTTL
    ({ s with
        store := s.store ++ [⟨s.nextId, orderNumber, currentTime, some expiresAt, "ready"⟩]
        nextId := s.nextId + 1
        lastDeletedOrder := none },
     .success)

/-- Submission through a recommended number: same duplicate guard, same
order construction, same clearing of the undo buffer. -/
def handleSelectRecommendedNumber (s : ControllerState) (number : Int) (localNow : Int) :
    ControllerState × SubmitResult :=
  if s.recentOrders.any (fun o => o.number = number) then
    (s, .rejectedDuplicate)
  else
    let currentTime := localNow + s.offset
    let expiresAt := currentTime + s.currentTTL
    ({ s with
        store := s.store ++ [⟨s.nextId, number, currentTime, some expiresAt, "ready"⟩]
        nextId := s.nextId + 1
        lastDeletedOrder := none },
     .success)

/-- TTL change: convert minutes to milliseconds, write the remote config
value and the local currentTTL state. -/
def handleTTLChange (s : ControllerState) (ttlMinutes : Int) : ControllerState :=
  let ttlMs := ttlMinutes * 60 * 1000
  { s with remoteTTL := ttlMs, currentTTL := ttlMs }

/-- Delete of one order: capture its fields from the local view into the
undo buffer when the id is found there, then remove the id from the
store. -/
def handleDeleteOrder (s : ControllerState) (orderId : Nat) : ControllerState :=
  let captured :=
    match s.recentOrders.find? (fun o => o.id = orderId) with
    | some o => { s with lastDeletedOrder := some ⟨o.number, o.createdAt, o.expiresAt, o.status⟩ }
    | none => s
  { captured with store := captured.store.filter (fun o => o.id ≠ orderId) }

/-- Undo: with an empty buffer do nothing; otherwise push the buffered
snapshot as a brand-new order under a fresh id and clear the buffer. -/
def handleUndo (s : ControllerState) : ControllerState :=
  match s.lastDeletedOrder with
  | none => s
  | some d =>
      { s with
        store := s.store ++ [⟨s.nextId, d.number, d.createdAt, d.expiresAt, d.status⟩]
        nextId := s.nextId + 1
        lastDeletedOrder := none }

/-- Preorder of the controller view sort on store entries (createdAt
descending, no tie break). -/
def controllerStoreRel (a b : StoreOrder) : Prop :=
  b.createdAt ≤ a.createdAt

instance : DecidableRel controllerStoreRel := fun a b => by
  unfold controllerStoreRel; infer_instance

instance : IsTotal StoreOrder controllerStoreRel :=
  ⟨by intro a b; unfold controllerStoreRel; omega⟩

instance : IsTrans StoreOrder controllerStoreRel :=
  ⟨by intro a b c; unfold controllerStoreRel; omega⟩

/-- Delivery of one full-set callback of the controller subscription: the
local view becomes the last ten store entries (limitToLast 10, key order)
sorted by the controller comparator. -/
def syncRecentOrders (s : ControllerState) : ControllerState :=
  { s with recentOrders :=
      List.insertionSort controllerStoreRel (s.store.drop (s.store.length - 10)) }

/-- The operations of the controller core, for frame reasoning over the undo
buffer. -/
inductive CtrlOp where
  | submit (number localNow : Int)
  | selectRecommended (number localNow : Int)
  | changeTTL (minutes : Int)
  | deleteOrder (orderId : Nat)
  | undo
  | sync
deriving DecidableEq

/-- Dispatch of one operation on the controller state. -/
def applyOp (s : ControllerState) : CtrlOp → ControllerState
  | .submit n t => (onSubmit s n t).1
  | .selectRecommended n t => (handleSelectRecommendedNumber s n t).1
  | .changeTTL m => handleTTLChange s m
  | .deleteOrder orderId => handleDeleteOrder s orderId
  | .undo => handleUndo s
  | .sync => syncRecentOrders s

/-- Concrete controller state used by counterexamples and witnesses: one
active order number 7, a buffered deleted order number 9, TTL five
minutes. -/
def demoCtrlState : ControllerState :=
  { store := [⟨0, 7, 100, some 300100, "ready"⟩]
    nextId := 1
    remoteTTL := 300000
    currentTTL := 300000
    offset := 0
    recentOrders := [⟨0, 7, 100, some 300100, "ready"⟩]
    lastDeletedOrder := some ⟨9, 50, some 300050, "ready"⟩ }

/-- Concrete controller state for the duplicate-rejection scenario of the
specification: order number 1002 is active in the local view. -/
def dedupDemoState : ControllerState :=
  { store := [⟨0, 1002, 100, some 300100, "ready"⟩]
    nextId := 1
    remoteTTL := 300000
    currentTTL := 300000
    offset := 0
    recentOrders := [⟨0, 1002, 100, some 300100, "ready"⟩]
    lastDeletedOrder := none }

/-- Raw entries with equal createdAt delivered in key order number 1 then
number 2: the tie case separating the two subscriber sorts. -/
def tieEntries : List (String × RawOrder) :=
  [("a", ⟨some 1, some 100, none, some "ready"⟩),
   ("b", ⟨some 2, some 100, none, some "ready"⟩)]

/-! ## Theorems -/

/-- C2 counterexample: on the first-ever run (no saved setting) the
sound-enabled flag comes up false, not true as claimed. -/
theorem c2_counterexample : ¬ soundEnabledAfterLoad none = true := by
  decide

/-- C2 (amended): on the first-ever run of a display client the
sound-enabled flag is initialized to false (off); on later runs it is
initialized to the previously saved value. -/
theorem c2_sound_default : soundEnabledAfterLoad none = false
    ∧ ∀ v : Bool, soundEnabledAfterLoad (some v) = v := by
  decide

/-- C3 counterexample: on a snapshot holding two orders with equal createdAt
delivered in key order number 1 then number 2, the controller view is not
sorted with the number tie break the claim requires for both subscribers. -/
theorem c3_counterexample :
    ¬ List.Sorted specSortRel (controllerSnapshotList tieEntries) := by
  decide

/-- C3 (amended): the display reconstruction is sorted with primary key
createdAt descending and ties broken by number descending, and is a
permutation of the parsed snapshot; the controller reconstruction is sorted
by createdAt descending only (ties keep snapshot key order) and is likewise
a permutation of the parsed snapshot. -/
theorem c3_snapshot_sorting (entries : List (String × RawOrder)) :
    List.Sorted specSortRel (displaySnapshotList entries)
    ∧ List.Sorted controllerOrderRel (controllerSnapshotList entries)
    ∧ List.Perm (displaySnapshotList entries) (entries.map (fun p => parseOrderDisplay p.1 p.2))
    ∧ List.Perm (controllerSnapshotList entries) (entries.map (fun p => parseOrderController p.1 p.2)) := by
  refine ⟨?_, ?_, ?_, ?_⟩
  · have h := List.sorted_insertionSort displayOrderRel
      (entries.map fun p => parseOrderDisplay p.1 p.2)
    exact h.imp (fun hab => hab)
  · exact List.sorted_insertionSort controllerOrderRel _
  · exact List.perm_insertionSort displayOrderRel _
  · exact List.perm_insertionSort controllerOrderRel _

/-- C4 counterexample: the controller keeps an unrecognized non-empty status
verbatim instead of defaulting it to ready. -/
theorem c4_counterexample :
    (parseOrderController "k" ⟨some 5, some 100, none, some "banana"⟩).status = "banana"
    ∧ isValidOrderStatus "banana" = false := by
  decide

/-- C4 (amended): on both subscribers an absent number defaults to 0 and an
absent createdAt defaults to 0, and an absent status defaults to ready; the
display additionally defaults any status outside ready, done, removed to
ready, while the controller defaults only an absent or empty status and
keeps any other status value verbatim. -/
theorem c4_defensive_parsing (key : String) (n c : Option Int) (s : String) :
    (parseOrderDisplay key ⟨none, c, none, some s⟩).number = 0
    ∧ (parseOrderController key ⟨none, c, none, some s⟩).number = 0
    ∧ (parseOrderDisplay key ⟨n, none, none, some s⟩).createdAt = 0
    ∧ (parseOrderController key ⟨n, none, none, some s⟩).createdAt = 0
    ∧ (parseOrderDisplay key ⟨n, c, none, none⟩).status = "ready"
    ∧ (parseOrderController key ⟨n, c, none, none⟩).status = "ready"
    ∧ (isValidOrderStatus s = false → (parseOrderDisplay key ⟨n, c, none, some s⟩).status = "ready")
    ∧ (s ≠ "" → (parseOrderController key ⟨n, c, none, some s⟩).status = s) := by
  refine ⟨rfl, rfl, rfl, rfl, rfl, rfl, ?_, ?_⟩
  · intro hbad
    simp [parseOrderDisplay, hbad]
  · intro hne
    simp [parseOrderController, hne]

/-- C4 witness: the amended parsing facts at a concrete malformed record
with status banana. -/
theorem c4_witness :
    (parseOrderDisplay "k" ⟨none, none, none, some "banana"⟩).number = 0
    ∧ (parseOrderController "k" ⟨none, none, none, some "banana"⟩).number = 0
    ∧ (parseOrderDisplay "k" ⟨none, none, none, some "banana"⟩).status = "ready"
    ∧ (parseOrderController "k" ⟨none, none, none, some "banana"⟩).status = "banana" := by
  have h := c4_defensive_parsing "k" none none "banana"
  exact ⟨h.1, h.2.1, h.2.2.2.2.2.2.1 (by decide), h.2.2.2.2.2.2.2 (by decide)⟩

/-- C6: a submission (manual or through a recommended number) whose proposed
number matches some order of the current local view is rejected with the
duplicate error and returns the state completely unchanged, so no remote
write is issued. -/
theorem c6_dedup_guard (s : ControllerState) (n t : Int)
    (hdup : s.recentOrders.any (fun o => o.number = n) = true) :
    onSubmit s n t = (s, SubmitResult.rejectedDuplicate)
    ∧ handleSelectRecommendedNumber s n t = (s, SubmitResult.rejectedDuplicate) := by
  constructor
  · simp [onSubmit, hdup]
  · simp [handleSelectRecommendedNumber, hdup]

/-- C6 witness: submitting 1002 while 1002 is active in the local view is
rejected and leaves the state untouched. -/
theorem c6_witness :
    onSubmit dedupDemoState 1002 5000 = (dedupDemoState, SubmitResult.rejectedDuplicate)
    ∧ handleSelectRecommendedNumber dedupDemoState 1002 5000
        = (dedupDemoState, SubmitResult.rejectedDuplicate) :=
  c6_dedup_guard dedupDemoState 1002 5000 (by decide)

/-- Characterization of the highlight trace of the display client: starting
from a state, the ids passed to kickHighlight by a sequence of events extend
the current trace with every guarded child-added key when the latch is
already set, and with only those after the first full-set callback when it
is not. -/
theorem runDisplay_highlighted (evs : List DisplayEvent) (s : DisplayState) :
    (runDisplay s evs).highlighted =
      s.highlighted ++
        (if s.initialAddedDone then evs.filterMap validAddKey else postSnapAdds evs) := by
  induction evs generalizing s with
  | nil => cases h : s.initialAddedDone <;> simp [runDisplay, postSnapAdds, h]
  | cons e rest ih =>
    cases e with
    | valueSnap raw =>
      cases raw with
      | some data =>
        show (runDisplay (stepDisplay s (.valueSnap (some data))) rest).highlighted = _
        rw [ih]
        simp only [stepDisplay, postSnapAdds, isSnapEvent, List.filterMap_cons, validAddKey]
        cases s.initialAddedDone <;> simp
      | none =>
        show (runDisplay (stepDisplay s (.valueSnap none)) rest).highlighted = _
        rw [ih]
        simp only [stepDisplay, postSnapAdds, isSnapEvent, List.filterMap_cons, validAddKey]
        cases s.initialAddedDone <;> simp
    | childAdded key hasVal =>
      cases key with
      | none =>
        show (runDisplay (stepDisplay s (.childAdded none hasVal)) rest).highlighted = _
        rw [ih]
        simp [stepDisplay, postSnapAdds, isSnapEvent, List.filterMap_cons, validAddKey]
      | some k =>
        by_cases hk : k = ""
        · subst hk
          show (runDisplay (stepDisplay s (.childAdded (some "") hasVal)) rest).highlighted = _
          rw [ih]
          cases hasVal <;>
            simp [stepDisplay, postSnapAdds, isSnapEvent, List.filterMap_cons, validAddKey]
        · cases hasVal with
          | false =>
            show (runDisplay (stepDisplay s (.childAdded (some k) false)) rest).highlighted = _
            rw [ih]
            simp [stepDisplay, hk, postSnapAdds, isSnapEvent, List.filterMap_cons, validAddKey]
          | true =>
            cases hlatch : s.initialAddedDone with
            | true =>
              show (runDisplay (stepDisplay s (.childAdded (some k) true)) rest).highlighted = _
              rw [ih]
              simp [stepDisplay, hk, hlatch, postSnapAdds, isSnapEvent,
                List.filterMap_cons, validAddKey]
            | false =>
              show (runDisplay (stepDisplay s (.childAdded (some k) true)) rest).highlighted = _
              rw [ih]
              simp [stepDisplay, hk, hlatch, postSnapAdds, isSnapEvent,
                List.filterMap_cons, validAddKey]

/-- The keys highlighted after the first full-set callback form a sublist of
all guarded child-added keys of the trace. -/
theorem postSnapAdds_sublist (evs : List DisplayEvent) :
    List.Sublist (postSnapAdds evs) (evs.filterMap validAddKey) := by
  induction evs with
  | nil => simp [postSnapAdds]
  | cons e rest ih =>
    cases hsnap : isSnapEvent e with
    | true =>
      have hnone : validAddKey e = none := by
        cases e with
        | valueSnap _ => rfl
        | childAdded _ _ => simp [isSnapEvent] at hsnap
      simp [postSnapAdds, hsnap, List.filterMap_cons, hnone]
    | false =>
      rw [postSnapAdds]
      rw [hsnap]
      simp only [Bool.false_eq_true, if_false]
      cases hv : validAddKey e with
      | none => simpa [List.filterMap_cons, hv] using ih
      | some k =>
        rw [List.filterMap_cons, hv]
        exact ih.cons k

/-- A trace without any full-set callback highlights nothing. -/
theorem postSnapAdds_nil_of_no_snap (evs : List DisplayEvent)
    (h : ∀ e ∈ evs, isSnapEvent e = false) : postSnapAdds evs = [] := by
  induction evs with
  | nil => rfl
  | cons e rest ih =>
    have he := h e (by simp)
    rw [postSnapAdds, he]
    simp only [Bool.false_eq_true, if_false]
    exact ih (fun x hx => h x (by simp [hx]))

/-- C1: over any delivered event trace whose guarded child-added keys are
pairwise distinct (the store assigns each child one add event per
subscription), the highlighted ids are exactly the guarded child-added keys
occurring after the first full-set callback; in particular a trace without a
full-set callback highlights nothing, every id is highlighted at most once
per session, and every id added after the latch is set is highlighted
exactly once. -/
theorem c1_arrival_latch (evs : List DisplayEvent)
    (hids : (evs.filterMap validAddKey).Nodup) :
    (runDisplay initDisplayState evs).highlighted = postSnapAdds evs
    ∧ ((∀ e ∈ evs, isSnapEvent e = false) →
        (runDisplay initDisplayState evs).highlighted = [])
    ∧ (∀ k : String, (runDisplay initDisplayState evs).highlighted.count k ≤ 1)
    ∧ (∀ k : String, k ∈ postSnapAdds evs →
        (runDisplay initDisplayState evs).highlighted.count k = 1) := by
  have hrun : (runDisplay initDisplayState evs).highlighted = postSnapAdds evs := by
    have h := runDisplay_highlighted evs initDisplayState
    simpa [initDisplayState] using h
  have hnodup : (postSnapAdds evs).Nodup := (postSnapAdds_sublist evs).nodup hids
  refine ⟨hrun, ?_, ?_, ?_⟩
  · intro hns
    rw [hrun]
    exact postSnapAdds_nil_of_no_snap evs hns
  · intro k
    rw [hrun]
    exact List.nodup_iff_count_le_one.mp hnodup k
  · intro k hk
    rw [hrun]
    exact List.count_eq_one_of_mem hnodup hk

/-- C1 witness: with five orders delivered during catch-up, then the first
snapshot, then a sixth order, exactly the sixth order is highlighted, and it
is highlighted exactly once. -/
theorem c1_witness :
    (runDisplay initDisplayState c1DemoTrace).highlighted = ["a6"]
    ∧ (runDisplay initDisplayState c1DemoTrace).highlighted.count "a6" = 1 := by
  have h := c1_arrival_latch c1DemoTrace (by decide)
  constructor
  · rw [h.1]
    decide
  · exact h.2.2.2 "a6" (by decide)

/-- C5: a successful submission (manual or through a recommended number)
appends one order whose createdAt is the server-corrected time
localNow + offset and whose expiresAt is createdAt plus the TTL in effect at
creation; handleTTLChange writes minutes times 60000 to the remote config,
leaves every stored order (hence every existing expiresAt) unchanged, and
determines the expiresAt of orders created afterwards. -/
theorem c5_ttl_at_creation (s : ControllerState) (n t m n2 t2 : Int)
    (h1 : s.recentOrders.any (fun o => o.number = n) = false)
    (h2 : s.recentOrders.any (fun o => o.number = n2) = false) :
    (onSubmit s n t).1.store
      = s.store ++ [⟨s.nextId, n, t + s.offset, some (t + s.offset + s.currentTTL), "ready"⟩]
    ∧ (handleSelectRecommendedNumber s n t).1.store
      = s.store ++ [⟨s.nextId, n, t + s.offset, some (t + s.offset + s.currentTTL), "ready"⟩]
    ∧ (handleTTLChange s m).remoteTTL = m * 60 * 1000
    ∧ (handleTTLChange s m).store = s.store
    ∧ (onSubmit (handleTTLChange s m) n2 t2).1.store
      = s.store ++ [⟨s.nextId, n2, t2 + s.offset, some (t2 + s.offset + m * 60 * 1000), "ready"⟩] := by
  refine ⟨?_, ?_, rfl, rfl, ?_⟩
  · simp [onSubmit, h1]
  · simp [handleSelectRecommendedNumber, h1]
  · simp [onSubmit, handleTTLChange, h2]

/-- C5 witness: concrete creation with the five-minute TTL, then a TTL
change to ten minutes affecting only the next creation. -/
theorem c5_witness :
    (onSubmit demoCtrlState 101 1000).1.store
      = demoCtrlState.store ++ [⟨1, 101, 1000, some 301000, "ready"⟩]
    ∧ (handleTTLChange demoCtrlState 10).remoteTTL = 600000
    ∧ (handleTTLChange demoCtrlState 10).store = demoCtrlState.store
    ∧ (onSubmit (handleTTLChange demoCtrlState 10) 102 2000).1.store
      = demoCtrlState.store ++ [⟨1, 102, 2000, some 602000, "ready"⟩] := by
  have h := c5_ttl_at_creation demoCtrlState 101 1000 10 102 2000 (by decide) (by decide)
  refine ⟨?_, ?_, h.2.2.2.1, ?_⟩
  · rw [h.1]
    decide
  · rw [h.2.2.1]
    decide
  · rw [h.2.2.2.2]
    decide

/-- C7: with a buffered snapshot, undo appends a brand-new order carrying
the snapshot fields verbatim under the fresh id nextId (distinct from the id
of every stored order when ids are below the counter) and clears the buffer;
an immediately following second undo changes nothing. -/
theorem c7_undo_roundtrip (s : ControllerState) (d : DeletedOrder)
    (hbuf : s.lastDeletedOrder = some d)
    (hfresh : ∀ o ∈ s.store, o.id < s.nextId) :
    (handleUndo s).store = s.store ++ [⟨s.nextId, d.number, d.createdAt, d.expiresAt, d.status⟩]
    ∧ (handleUndo s).lastDeletedOrder = none
    ∧ (∀ o ∈ s.store, o.id ≠ s.nextId)
    ∧ handleUndo (handleUndo s) = handleUndo s := by
  have hu : handleUndo s =
      { s with
        store := s.store ++ [⟨s.nextId, d.number, d.createdAt, d.expiresAt, d.status⟩]
        nextId := s.nextId + 1
        lastDeletedOrder := none } := by
    simp [handleUndo, hbuf]
  refine ⟨by rw [hu], by rw [hu], ?_, ?_⟩
  · intro o ho
    exact Nat.ne_of_lt (hfresh o ho)
  · rw [hu]
    simp [handleUndo]

/-- C7 witness: undoing the buffered deleted order number 9 recreates it
verbatim under the fresh id 1 and empties the buffer; a second undo is a
no-op. -/
theorem c7_witness :
    (handleUndo demoCtrlState).store
      = demoCtrlState.store ++ [⟨demoCtrlState.nextId, 9, 50, some 300050, "ready"⟩]
    ∧ (handleUndo demoCtrlState).lastDeletedOrder = none
    ∧ handleUndo (handleUndo demoCtrlState) = handleUndo demoCtrlState := by
  have h := c7_undo_roundtrip demoCtrlState ⟨9, 50, some 300050, "ready"⟩ rfl (by decide)
  exact ⟨h.1, h.2.1, h.2.2.2⟩

/-- C8 counterexample: with a snapshot buffered, a successful manual
submission (an operation that is neither a delete nor an undo) clears the
undo buffer, refuting the claim that only deletes and undo touch it. -/
theorem c8_counterexample :
    demoCtrlState.lastDeletedOrder = some ⟨9, 50, some 300050, "ready"⟩
    ∧ (applyOp demoCtrlState (.submit 42 1000)).lastDeletedOrder = none := by
  decide

/-- C8 (amended): the undo buffer changes only as follows: a delete of an id
found in the local view overwrites it with that order's snapshot (a delete
of an unknown id leaves it alone), an undo leaves it empty, a successful
submission (manual or recommendation) clears it while a rejected duplicate
leaves it alone, and TTL changes and view synchronization never modify
it. -/
theorem c8_undo_buffer_frame (s : ControllerState) (op : CtrlOp) :
    (applyOp s op).lastDeletedOrder =
      (match op with
       | .deleteOrder orderId =>
           (match s.recentOrders.find? (fun o => o.id = orderId) with
            | some o => some ⟨o.number, o.createdAt, o.expiresAt, o.status⟩
            | none => s.lastDeletedOrder)
       | .undo => none
       | .submit n _ =>
           if s.recentOrders.any (fun o => o.number = n) then s.lastDeletedOrder else none
       | .selectRecommended n _ =>
           if s.recentOrders.any (fun o => o.number = n) then s.lastDeletedOrder else none
       | .changeTTL _ => s.lastDeletedOrder
       | .sync => s.lastDeletedOrder) := by
  cases op with
  | submit n t =>
    cases hd : s.recentOrders.any (fun o => o.number = n) <;>
      simp [applyOp, onSubmit, hd]
  | selectRecommended n t =>
    cases hd : s.recentOrders.any (fun o => o.number = n) <;>
      simp [applyOp, handleSelectRecommendedNumber, hd]
  | changeTTL m => rfl
  | deleteOrder orderId =>
    cases hf : s.recentOrders.find? (fun o => o.id = orderId) <;>
      simp [applyOp, handleDeleteOrder, hf]
  | undo =>
    cases hb : s.lastDeletedOrder <;> simp [applyOp, handleUndo, hb]
  | sync => rfl

/-- Arithmetic of the 1 Hz sweep: for a highlight inserted at t0 at or after
the sweep timer start, the tick with the removal index is the first tick at
or after the expiry instant t0 + 5000, and it happens no later than
t0 + 6000. -/
theorem sweep_bounds (start t0 : Nat) (hs : start ≤ t0) :
    t0 + 5000 ≤ sweepTime start (removalIndex start t0)
    ∧ sweepTime start (removalIndex start t0) ≤ t0 + 6000
    ∧ ∀ j, j < removalIndex start t0 → sweepTime start j < t0 + 5000 := by
  unfold sweepTime removalIndex
  refine ⟨by omega, by omega, fun j hj => by omega⟩

/-- C9: a highlight inserted at time t0 carries expiry t0 + 5000; every
sweep tick strictly before that instant retains it, and the first tick at or
after it removes it — a tick that lies between 5000 and 6000 milliseconds
after insertion. -/
theorem c9_highlight_window (start t0 : Nat) (hs : start ≤ t0)
    (m0 : List (String × Nat)) (orderId : String) :
    ((orderId, t0 + 5000) ∈ kickHighlight orderId t0 m0)
    ∧ t0 + 5000 ≤ sweepTime start (removalIndex start t0)
    ∧ sweepTime start (removalIndex start t0) ≤ t0 + 6000
    ∧ ((orderId, t0 + 5000) ∉
        sweepNewOrderIds (sweepTime start (removalIndex start t0)) (kickHighlight orderId t0 m0))
    ∧ (∀ j, j < removalIndex start t0 →
        (orderId, t0 + 5000) ∈ sweepNewOrderIds (sweepTime start j) (kickHighlight orderId t0 m0)) := by
  obtain ⟨hlo, hhi, hpre⟩ := sweep_bounds start t0 hs
  have hmem : (orderId, t0 + 5000) ∈ kickHighlight orderId t0 m0 := by
    simp [kickHighlight]
  refine ⟨hmem, hlo, hhi, ?_, ?_⟩
  · intro hcontra
    rw [sweepNewOrderIds, List.mem_filter] at hcontra
    have h2 := hcontra.2
    simp only [Bool.not_eq_eq_eq_not, Bool.not_true, decide_eq_false_iff_not] at h2
    exact h2 hlo
  · intro j hj
    rw [sweepNewOrderIds, List.mem_filter]
    refine ⟨hmem, ?_⟩
    have := hpre j hj
    simp only [Bool.not_eq_eq_eq_not, Bool.not_true, decide_eq_false_iff_not]
    omega

/-- C9 witness: a highlight inserted at time 0 with the sweep timer started
at 0 expires at 5000 and is removed by the tick at 5000, within the 5 to 6
second window. -/
theorem c9_witness :
    (("x", 0 + 5000) ∈ kickHighlight "x" 0 [])
    ∧ 0 + 5000 ≤ sweepTime 0 (removalIndex 0 0)
    ∧ sweepTime 0 (removalIndex 0 0) ≤ 0 + 6000
    ∧ (("x", 0 + 5000) ∉
        sweepNewOrderIds (sweepTime 0 (removalIndex 0 0)) (kickHighlight "x" 0 [])) := by
  have h := c9_highlight_window 0 0 (by decide) [] "x"
  exact ⟨h.1, h.2.1, h.2.2.1, h.2.2.2.1⟩

/-- C10: an order whose expiresAt is absent is never classified as expired:
every sweep retains it, no delete is issued for its id (when ids are
unique), and it survives any sequence of sweeps. -/
theorem c10_absent_expiry_never_reaped (o : Order) (h : o.expiresAt = none) :
    (∀ orders now, o ∈ orders → o ∈ (cleanupExpiredOrders orders now).1)
    ∧ (∀ orders now, (orders.map Order.id).Nodup → o ∈ orders →
        o.id ∉ (cleanupExpiredOrders orders now).2)
    ∧ (∀ orders times, o ∈ orders → o ∈ runCleanupSweeps orders times) := by
  have hexp : ∀ now, isExpiredOrder o now = false := by
    intro now
    simp [isExpiredOrder, h]
  have hkeep : ∀ orders now, o ∈ orders → o ∈ (cleanupExpiredOrders orders now).1 := by
    intro orders now ho
    simp only [cleanupExpiredOrders]
    exact List.mem_filter.mpr ⟨ho, by simp [hexp now]⟩
  refine ⟨hkeep, ?_, ?_⟩
  · intro orders now hnd ho hid
    simp only [cleanupExpiredOrders, List.mem_map] at hid
    obtain ⟨o2, ho2, hideq⟩ := hid
    rw [List.mem_filter] at ho2
    have hne : o2 ≠ o := by
      intro he
      rw [he, hexp now] at ho2
      exact absurd ho2.2 (by simp)
    exact hne (List.inj_on_of_nodup_map hnd ho2.1 ho hideq)
  · intro orders times ho
    induction times generalizing orders with
    | nil => exact ho
    | cons t ts ih =>
      rw [runCleanupSweeps]
      exact ih _ (hkeep orders t ho)

/-- C10 witness: a concrete order without expiresAt survives every single
sweep and every sequence of sweeps it takes part in. -/
theorem c10_witness :
    (∀ orders now, (⟨"w", 9, 0, none, "ready"⟩ : Order) ∈ orders →
      (⟨"w", 9, 0, none, "ready"⟩ : Order) ∈ (cleanupExpiredOrders orders now).1)
    ∧ (∀ orders times, (⟨"w", 9, 0, none, "ready"⟩ : Order) ∈ orders →
      (⟨"w", 9, 0, none, "ready"⟩ : Order) ∈ runCleanupSweeps orders times) := by
  have h := c10_absent_expiry_never_reaped ⟨"w", 9, 0, none, "ready"⟩ rfl
  exact ⟨h.1, h.2.2⟩

end CafeOrderDisplay
